import Mathlib

/-!
Verification of the parallel OCR extraction pipeline in
`src/extract_with_ocr.py` (repository `MichaelLevinson/LLMDevTools`).

The Python source is shallowly embedded below.  External collaborators
(PyMuPDF's `fitz.open` / page rasterization and Tesseract's recognizer)
are modelled as an environment of (possibly failing) functions, so that a
raised Python exception becomes `Except.error`.  The order in which
`concurrent.futures.as_completed` yields finished futures is modelled as
an explicit list of page indices (a permutation of `range total_pages`),
because the source's aggregation loop consumes results in arrival order.
-/

/-- Environment of external collaborators used by the script.
`openDoc` models `fitz.open` (which raises on an unreadable source);
`pageCount` models `len(doc)` for a successfully opened document;
`rasterize` models `doc.load_page(n)` followed by `page.get_pixmap(...)`
and `Image.frombytes(...)` (path, page number, dpi);
`recognize` models `pytesseract.image_to_string(img, lang=lang)`. -/
structure OCREnv (ε Img : Type) where
  openDoc : String → Except ε Unit
  pageCount : String → Nat
  rasterize : String → Nat → Nat → Except ε Img
  recognize : Img → String → Except ε String

/-- Embedding of `check_hardware_capabilities` (line 33 of the source):
`optimal_workers = max(1, cpu_count - 1)`, leaving one core free.
`cpu_count` is an integer as reported by `os.cpu_count()`. -/
def optimal_workers (cpu_count : Int) : Int :=
  max 1 (cpu_count - 1)

/-- Embedding of `process_page` (lines 43-60): open the PDF, rasterize the
requested page at the requested dpi, run the recognizer, and return the
pair `(page_num, text)`.  The source has no `try`/`except`: any error from
the collaborators propagates out of the function. -/
def process_page (env : OCREnv ε Img) (args : Nat × String × Nat × String) :
    Except ε (Nat × String) := do
  let (page_num, pdf_path, dpi, lang) := args
  let _doc ← env.openDoc pdf_path
  let img ← env.rasterize pdf_path page_num dpi
  let text ← env.recognize img lang
  return (page_num, text)

/-- Embedding of one step of the aggregation loop (line 109 of the source):
`all_text[page_num] = page_text`.  A plain list update: it silently
overwrites whatever was stored at that index before. -/
def record_result (all_text : List String) (r : Nat × String) : List String :=
  all_text.set r.1 r.2

/-- Embedding of the final assembly (line 123): `"\n\n".join(all_text)`. -/
def finalize (all_text : List String) : String :=
  String.intercalate "\n\n" all_text

/-- Embedding of the progress update performed for each completion event
(lines 110-116 of the source).  Input: `total` pages, the number of pages
processed before this event, the start and current times (rationals, as
the real-valued clock).  Output: the new processed count, the elapsed
time, the throughput `pages_per_sec` and the `eta`, exactly as computed by
the source (with its guards `max(elapsed, 0.1)` and
`max(pages_per_sec, 0.001)`). -/
def progress_update (total before : Nat) (start now : ℚ) :
    Nat × ℚ × ℚ × ℚ :=
  let pages_processed := before + 1
  let elapsed := now - start
  let pages_per_sec := (pages_processed : ℚ) / max elapsed (1/10)
  let eta := ((total : ℚ) - (pages_processed : ℚ)) / max pages_per_sec (1/1000)
  (pages_processed, elapsed, pages_per_sec, eta)

/-- Embedding of the `for future in as_completed(futures)` loop
(lines 107-110 of the source): drain the completed tasks in arrival order
`order`; `future.result()` re-raises any exception the page task raised;
on success, store the text at the returned page number (line 109) and
increment `pages_processed` (line 110).  Returns the final buffer and the
final processed count, or the first error that surfaced. -/
def aggregation_loop (env : OCREnv ε Img) (pdf_path : String) (dpi : Nat)
    (lang : String) (order : List Nat) (all_text : List String)
    (pages_processed : Nat) : Except ε (List String × Nat) :=
  match order with
  | [] => .ok (all_text, pages_processed)
  | i :: rest => do
    let r ← process_page env (i, pdf_path, dpi, lang)
    aggregation_loop env pdf_path dpi lang rest (record_result all_text r)
      (pages_processed + 1)

/-- Embedding of `extract_text_with_ocr` (lines 62-139).  Mirrors the
source statement by statement:
`fitz.open(pdf_path)` (line 88, may raise); `total_pages = len(doc)`
(line 89); the batch-size default `batch_size = hardware_config["workers"]`
(lines 84-85, the value is printed but never handed to the pool);
the pre-allocated result array `all_text = [""] * total_pages` (line 98);
the pool whose `max_workers` is `hardware_config["workers"]` (line 104);
the aggregation loop over `as_completed` (lines 107-110), consuming
results in arrival order `order`; and the final join (line 123).  The
per-event progress display (lines 112-120) is advisory output modelled by
`progress_update`.  Returns the extracted text or the first error that
surfaced. -/
def extract_text_with_ocr (env : OCREnv ε Img) (pdf_path : String)
    (dpi : Nat) (lang : String) (batch_size : Option Nat) (workers : Nat)
    (order : List Nat) : Except ε String := do
  let _doc ← env.openDoc pdf_path
  let total_pages := env.pageCount pdf_path
  let _batch_size := batch_size.getD workers
  let all_text0 := List.replicate total_pages ""
  let (all_text, _) ← aggregation_loop env pdf_path dpi lang order all_text0 0
  return finalize all_text

/-- The `max_workers` argument actually passed to `ProcessPoolExecutor`
at line 104 of the source: it is `hardware_config["workers"]`; the
`batch_size` parameter is not consulted there. -/
def pool_max_workers (workers : Nat) (_batch_size : Option Nat) : Nat :=
  workers

/-- The batch size reported by the source (lines 84-85, printed at line
95): the caller's explicit value when given, else the derived worker
count. -/
def effective_batch_size (workers : Nat) (batch_size : Option Nat) : Nat :=
  batch_size.getD workers

/-- A concrete deterministic environment for witnesses: a 4-page document
where every page succeeds, page `i` recognizing to `"p" ++ toString i`. -/
def envOk : OCREnv String String where
  openDoc := fun _ => .ok ()
  pageCount := fun _ => 4
  rasterize := fun _ i _ => .ok (toString i)
  recognize := fun img _ => .ok ("p" ++ img)

/-- A concrete environment where rasterization of page 2 raises and every
other collaborator call succeeds, on a 4-page document. -/
def envFail2 : OCREnv String String where
  openDoc := fun _ => .ok ()
  pageCount := fun _ => 4
  rasterize := fun _ i _ =>
    if i = 2 then .error "PageRenderError: page 2" else .ok (toString i)
  recognize := fun img _ => .ok ("p" ++ img)

/-- A concrete deterministic environment for a zero-page document. -/
def envZero : OCREnv String String where
  openDoc := fun _ => .ok ()
  pageCount := fun _ => 0
  rasterize := fun _ _ _ => .error "no pages"
  recognize := fun _ _ => .error "unused"

/-- Sanity evaluation: on the all-success environment the pipeline
returns the four page texts joined by blank lines, for either arrival
order. -/
theorem envOk_eval :
    extract_text_with_ocr envOk "d.pdf" 300 "eng" none 3 [0, 1, 2, 3] =
      .ok "p0\n\np1\n\np2\n\np3" ∧
    extract_text_with_ocr envOk "d.pdf" 300 "eng" none 3 [3, 1, 0, 2] =
      .ok "p0\n\np1\n\np2\n\np3" :=
  ⟨rfl, rfl⟩

/-! Unfolding equations for the embedded definitions. -/

/-- Reduction of the `Except` bind on a success value. -/
theorem except_bind_ok (a : α) (f : α → Except ε β) :
    (Except.ok a : Except ε α) >>= f = f a := rfl

/-- Reduction of the `Except` bind on an error value. -/
theorem except_bind_error (e : ε) (f : α → Except ε β) :
    (Except.error e : Except ε α) >>= f = Except.error e := rfl

/-- Reduction of `pure` in the `Except` monad. -/
theorem except_pure_eq (a : α) : (pure a : Except ε α) = Except.ok a := rfl

/-- A successful `process_page` returns the page number it was given as
the first component of its result pair (line 60 of the source:
`return page_num, text`). -/
theorem process_page_fst (env : OCREnv ε Img) (page_num : Nat)
    (pdf_path : String) (dpi : Nat) (lang : String) (r : Nat × String)
    (h : process_page env (page_num, pdf_path, dpi, lang) = .ok r) :
    r.1 = page_num := by
  simp only [process_page] at h
  cases ho : env.openDoc pdf_path with
  | error e =>
    simp only [ho, except_bind_error] at h
    exact Except.noConfusion h
  | ok u =>
    simp only [ho, except_bind_ok] at h
    cases hr : env.rasterize pdf_path page_num dpi with
    | error e =>
      simp only [hr, except_bind_error] at h
      exact Except.noConfusion h
    | ok img =>
      simp only [hr, except_bind_ok] at h
      cases ht : env.recognize img lang with
      | error e =>
        simp only [ht, except_bind_error] at h
        exact Except.noConfusion h
      | ok text =>
        simp only [ht, except_bind_ok, except_pure_eq] at h
        injection h with h2
        subst h2
        rfl

/-- The aggregation loop on an empty arrival stream returns the buffer
and count unchanged. -/
theorem aggregation_loop_nil (env : OCREnv ε Img) (pdf_path : String)
    (dpi : Nat) (lang : String) (buf : List String) (k : Nat) :
    aggregation_loop env pdf_path dpi lang [] buf k = .ok (buf, k) := rfl

/-- Case-split form of one iteration of the aggregation loop:
`future.result()` either re-raises the task's error or yields a pair that
is recorded, with the processed count incremented. -/
theorem aggregation_loop_cons (env : OCREnv ε Img) (pdf_path : String)
    (dpi : Nat) (lang : String) (i : Nat) (rest : List Nat)
    (buf : List String) (k : Nat) :
    aggregation_loop env pdf_path dpi lang (i :: rest) buf k =
      match process_page env (i, pdf_path, dpi, lang) with
      | .error e => .error e
      | .ok r =>
        aggregation_loop env pdf_path dpi lang rest (record_result buf r)
          (k + 1) := by
  simp only [aggregation_loop]
  cases process_page env (i, pdf_path, dpi, lang) with
  | error e => rfl
  | ok r => rfl

/-- Case-split form of `extract_text_with_ocr`: open the document, drain
the pool, join the buffer. -/
theorem extract_eq (env : OCREnv ε Img) (pdf_path : String) (dpi : Nat)
    (lang : String) (batch_size : Option Nat) (workers : Nat)
    (order : List Nat) :
    extract_text_with_ocr env pdf_path dpi lang batch_size workers order =
      match env.openDoc pdf_path with
      | .error e => .error e
      | .ok _ =>
        match aggregation_loop env pdf_path dpi lang order
            (List.replicate (env.pageCount pdf_path) "") 0 with
        | .error e => .error e
        | .ok x => .ok (finalize x.1) := by
  simp only [extract_text_with_ocr]
  cases env.openDoc pdf_path with
  | error e => rfl
  | ok u =>
    cases aggregation_loop env pdf_path dpi lang order
        (List.replicate (env.pageCount pdf_path) "") 0 with
    | error e => rfl
    | ok x => cases x; rfl

/-- Behavior of the aggregation loop when every arriving task succeeded:
the loop succeeds, increments the processed count once per event, leaves
indices outside the arrival stream untouched, and (when no page arrives
twice) stores each arriving page's text at that page's index. -/
theorem aggregation_loop_ok (env : OCREnv ε Img) (pdf_path : String)
    (dpi : Nat) (lang : String) (t : Nat → String) (order : List Nat) :
    ∀ (buf : List String) (k : Nat),
      (∀ i ∈ order, process_page env (i, pdf_path, dpi, lang) = .ok (i, t i)) →
      ∃ buf2,
        aggregation_loop env pdf_path dpi lang order buf k =
          .ok (buf2, k + order.length) ∧
        buf2.length = buf.length ∧
        (∀ j, j ∉ order → buf2[j]? = buf[j]?) ∧
        (order.Nodup → ∀ j ∈ order, j < buf.length → buf2[j]? = some (t j)) := by
  induction order with
  | nil =>
    intro buf k _
    exact ⟨buf, rfl, rfl, fun j _ => rfl,
      fun _ j hj => absurd hj (List.not_mem_nil j)⟩
  | cons i rest ih =>
    intro buf k hsucc
    have hi : process_page env (i, pdf_path, dpi, lang) = .ok (i, t i) :=
      hsucc i (List.mem_cons_self i rest)
    have hrest : ∀ j ∈ rest,
        process_page env (j, pdf_path, dpi, lang) = .ok (j, t j) :=
      fun j hj => hsucc j (List.mem_cons_of_mem i hj)
    obtain ⟨buf2, hloop, hlen, hout, hin⟩ :=
      ih (record_result buf (i, t i)) (k + 1) hrest
    refine ⟨buf2, ?_, ?_, ?_, ?_⟩
    · rw [aggregation_loop_cons, hi]
      show aggregation_loop env pdf_path dpi lang rest
          (record_result buf (i, t i)) (k + 1) =
        Except.ok (buf2, k + (i :: rest).length)
      rw [hloop]
      have harith : k + 1 + rest.length = k + (i :: rest).length := by
        rw [List.length_cons]; omega
      rw [harith]
    · rw [hlen]
      simp [record_result]
    · intro j hj
      have hji : j ≠ i := fun hh => hj (hh ▸ List.mem_cons_self i rest)
      have hjr : j ∉ rest := fun hh => hj (List.mem_cons_of_mem i hh)
      rw [hout j hjr]
      simp [record_result, List.getElem?_set_ne (Ne.symm hji)]
    · intro hnd j hj hjlen
      rw [List.nodup_cons] at hnd
      obtain ⟨hir, hndr⟩ := hnd
      rcases List.mem_cons.mp hj with hji | hjr
      · subst hji
        rw [hout j hir]
        simp only [record_result]
        exact List.getElem?_set_self hjlen
      · exact hin hndr j hjr (by simpa [record_result] using hjlen)

/-- Behavior of the aggregation loop when some arriving task raised:
`future.result()` re-raises the first such error in arrival order, so the
loop fails. -/
theorem aggregation_loop_err (env : OCREnv ε Img) (pdf_path : String)
    (dpi : Nat) (lang : String) (order : List Nat) :
    ∀ (buf : List String) (k : Nat),
      (∃ i ∈ order, ∃ e, process_page env (i, pdf_path, dpi, lang) = .error e) →
      ∃ e, aggregation_loop env pdf_path dpi lang order buf k = .error e := by
  induction order with
  | nil =>
    intro buf k h
    obtain ⟨i, hi, _⟩ := h
    exact absurd hi (List.not_mem_nil i)
  | cons i rest ih =>
    intro buf k h
    cases hp : process_page env (i, pdf_path, dpi, lang) with
    | error e =>
      exact ⟨e, by rw [aggregation_loop_cons, hp]⟩
    | ok r =>
      obtain ⟨j, hj, e, he⟩ := h
      rcases List.mem_cons.mp hj with hji | hjr
      · subst hji
        rw [hp] at he
        exact Except.noConfusion he
      · obtain ⟨e2, h2⟩ := ih (record_result buf r) (k + 1) ⟨j, hjr, e, he⟩
        exact ⟨e2, by rw [aggregation_loop_cons, hp]; exact h2⟩

/-- A failing `fitz.open` at line 88 aborts the pipeline with that
error. -/
theorem extract_open_err (env : OCREnv ε Img) (pdf_path : String)
    (dpi : Nat) (lang : String) (batch_size : Option Nat) (workers : Nat)
    (order : List Nat) (e : ε) (ho : env.openDoc pdf_path = .error e) :
    extract_text_with_ocr env pdf_path dpi lang batch_size workers order =
      .error e := by
  rw [extract_eq, ho]

/-- A failing aggregation loop aborts the pipeline with that error. -/
theorem extract_err_of_loop (env : OCREnv ε Img) (pdf_path : String)
    (dpi : Nat) (lang : String) (batch_size : Option Nat) (workers : Nat)
    (order : List Nat) (e : ε) (ho : env.openDoc pdf_path = .ok ())
    (hl : aggregation_loop env pdf_path dpi lang order
        (List.replicate (env.pageCount pdf_path) "") 0 = .error e) :
    extract_text_with_ocr env pdf_path dpi lang batch_size workers order =
      .error e := by
  rw [extract_eq, ho, hl]

/-- A successful aggregation loop makes the pipeline return the join of
the final buffer. -/
theorem extract_ok_of_loop (env : OCREnv ε Img) (pdf_path : String)
    (dpi : Nat) (lang : String) (batch_size : Option Nat) (workers : Nat)
    (order : List Nat) (buf : List String) (k : Nat)
    (ho : env.openDoc pdf_path = .ok ())
    (hl : aggregation_loop env pdf_path dpi lang order
        (List.replicate (env.pageCount pdf_path) "") 0 = .ok (buf, k)) :
    extract_text_with_ocr env pdf_path dpi lang batch_size workers order =
      .ok (finalize buf) := by
  rw [extract_eq, ho, hl]

/-- When `fitz.open` succeeds and every page in `[0, n)` succeeds with
text `t i`, running the pipeline with any arrival order that is a
permutation of the page range yields the blank-line join of the texts in
page-index order. -/
theorem extract_ok_of_all (env : OCREnv ε Img) (pdf_path : String)
    (dpi : Nat) (lang : String) (batch_size : Option Nat) (workers : Nat)
    (n : Nat) (t : Nat → String) (order : List Nat)
    (hopen : env.openDoc pdf_path = .ok ())
    (hcount : env.pageCount pdf_path = n)
    (hsucc : ∀ i, i < n → process_page env (i, pdf_path, dpi, lang) = .ok (i, t i))
    (hperm : order.Perm (List.range n)) :
    extract_text_with_ocr env pdf_path dpi lang batch_size workers order =
      .ok (String.intercalate "\n\n" ((List.range n).map t)) := by
  subst hcount
  set n := env.pageCount pdf_path with hn
  have hnodup : order.Nodup := (hperm.nodup_iff).mpr (List.nodup_range n)
  have hmem : ∀ i, i ∈ order ↔ i < n := fun i => by
    rw [hperm.mem_iff, List.mem_range]
  obtain ⟨buf2, hloop, hlen, hout, hin⟩ :=
    aggregation_loop_ok env pdf_path dpi lang t order (List.replicate n "") 0
      (fun i hi => hsucc i ((hmem i).mp hi))
  have hbuf : buf2 = (List.range n).map t := by
    apply List.ext_getElem?
    intro j
    by_cases hj : j < n
    · rw [hin hnodup j ((hmem j).mpr hj) (by simp [hj]),
        List.getElem?_map, List.getElem?_range hj]
      rfl
    · have hl : buf2.length ≤ j := by
        rw [hlen, List.length_replicate]
        omega
      rw [List.getElem?_eq_none hl, List.getElem?_eq_none]
      rw [List.length_map, List.length_range]
      omega
  have hext := extract_ok_of_loop env pdf_path dpi lang batch_size workers
    order buf2 (0 + order.length) hopen hloop
  rw [hext, hbuf]
  rfl

/-- When some page task in the arrival stream raised, the pipeline fails
(either at `fitz.open` or when `future.result()` re-raises). -/
theorem extract_err_of_fail (env : OCREnv ε Img) (pdf_path : String)
    (dpi : Nat) (lang : String) (batch_size : Option Nat) (workers : Nat)
    (order : List Nat)
    (hfail : ∃ i ∈ order, ∃ e, process_page env (i, pdf_path, dpi, lang) = .error e) :
    ∃ e, extract_text_with_ocr env pdf_path dpi lang batch_size workers order =
      .error e := by
  cases ho : env.openDoc pdf_path with
  | error e =>
    exact ⟨e, extract_open_err env pdf_path dpi lang batch_size workers order e ho⟩
  | ok u =>
    cases u
    obtain ⟨e2, hl⟩ := aggregation_loop_err env pdf_path dpi lang order
      (List.replicate (env.pageCount pdf_path) "") 0 hfail
    exact ⟨e2, extract_err_of_loop env pdf_path dpi lang batch_size workers
      order e2 ho hl⟩

/-! Claim-level theorems. -/

/-- C1, counterexample: on a 4-page document where page 2's rasterization
raises, the pipeline does not produce a 4-segment output with an
error-marked segment 2 and overall success; it aborts with the raised
error (no output text at all), because `process_page` has no handler and
`future.result()` re-raises inside the aggregation loop. -/
theorem C1_counterexample :
    extract_text_with_ocr envFail2 "d.pdf" 300 "eng" none 3 [0, 1, 2, 3] =
      .error "PageRenderError: page 2" ∧
    (extract_text_with_ocr envFail2 "d.pdf" 300 "eng" none 3 [0, 1, 2, 3]).toOption =
      none :=
  ⟨rfl, rfl⟩

/-- C1, amended: if rasterization or recognition raises for any page in
the arrival stream, the exception propagates out of the page task,
`future.result()` re-raises it in the aggregation loop, and the whole run
aborts with an error instead of producing output. -/
theorem C1_page_error_aborts_run (env : OCREnv ε Img) (pdf_path : String)
    (dpi : Nat) (lang : String) (batch_size : Option Nat) (workers : Nat)
    (order : List Nat)
    (hfail : ∃ i ∈ order, ∃ e,
      process_page env (i, pdf_path, dpi, lang) = .error e) :
    (extract_text_with_ocr env pdf_path dpi lang batch_size workers
      order).toOption = none := by
  obtain ⟨e, he⟩ :=
    extract_err_of_fail env pdf_path dpi lang batch_size workers order hfail
  rw [he]
  rfl

/-- Witness for the amended C1, at the concrete failing environment. -/
theorem C1_page_error_aborts_run_witness :
    (extract_text_with_ocr envFail2 "d.pdf" 300 "eng" none 3
      [0, 1, 2, 3]).toOption = none :=
  C1_page_error_aborts_run envFail2 "d.pdf" 300 "eng" none 3 [0, 1, 2, 3]
    ⟨2, by decide, "PageRenderError: page 2", rfl⟩

/-- C2, counterexample: recording a second result at an index that was
already recorded does not fail; the second call returns normally and
silently overwrites the previously stored result. -/
theorem C2_counterexample :
    record_result (record_result (List.replicate 1 "") (0, "first"))
      (0, "second") = ["second"] ∧
    ("second" : String) ≠ "first" :=
  ⟨rfl, by decide⟩

/-- C2, amended: a second record at the same index is a silent overwrite:
the double record equals recording only the second value, and the buffer
afterwards holds the second value at that index; no `DuplicateResult`
condition exists (the recording step is a total list update). -/
theorem C2_second_record_overwrites (buf : List String) (i : Nat)
    (v w : String) (h : i < buf.length) :
    record_result (record_result buf (i, v)) (i, w) =
      record_result buf (i, w) ∧
    (record_result (record_result buf (i, v)) (i, w))[i]? = some w := by
  constructor
  · simp [record_result, List.set_set]
  · simp only [record_result]
    rw [List.set_set]
    exact List.getElem?_set_self h

/-- Witness for the amended C2, on a singleton buffer. -/
theorem C2_second_record_overwrites_witness :
    record_result (record_result ["x"] (0, "first")) (0, "second") =
      record_result ["x"] (0, "second") ∧
    (record_result (record_result ["x"] (0, "first")) (0, "second"))[0]? =
      some "second" :=
  C2_second_record_overwrites ["x"] 0 "first" "second" (by decide)

/-- C3, counterexample: with a 2-page buffer where only index 0 was
recorded (index 1 unfilled), the final join does not fail with an
`IncompleteResults` condition: it returns a string, the unfilled index
contributing its pre-allocated empty segment; it also returns a string
when nothing at all was recorded. -/
theorem C3_counterexample :
    finalize (record_result (List.replicate 2 "") (0, "t0")) = "t0\n\n" ∧
    finalize (List.replicate 2 "") = "\n\n" :=
  ⟨rfl, rfl⟩

/-- C3, amended: the final join cannot fail. For any set of arriving
pages (in particular an incomplete one) whose tasks succeeded, the loop
succeeds and the join of the resulting buffer is the blank-line
concatenation over all page indices, where a page that never arrived
contributes its pre-allocated empty segment. -/
theorem C3_finalize_never_fails (env : OCREnv ε Img) (pdf_path : String)
    (dpi : Nat) (lang : String) (t : Nat → String) (n : Nat)
    (order : List Nat) (hnodup : order.Nodup)
    (hsucc : ∀ i ∈ order,
      process_page env (i, pdf_path, dpi, lang) = .ok (i, t i)) :
    (aggregation_loop env pdf_path dpi lang order (List.replicate n "")
        0).map (fun x => finalize x.1) =
      .ok (String.intercalate "\n\n"
        ((List.range n).map fun j => if j ∈ order then t j else "")) := by
  obtain ⟨buf2, hloop, hlen, hout, hin⟩ :=
    aggregation_loop_ok env pdf_path dpi lang t order
      (List.replicate n "") 0 hsucc
  rw [hloop]
  show Except.ok (finalize buf2) = _
  have hbuf : buf2 =
      (List.range n).map fun j => if j ∈ order then t j else "" := by
    apply List.ext_getElem?
    intro j
    by_cases hj : j < n
    · by_cases hjo : j ∈ order
      · rw [hin hnodup j hjo (by simpa using hj), List.getElem?_map,
          List.getElem?_range hj]
        simp [hjo]
      · rw [hout j hjo, List.getElem?_replicate, List.getElem?_map,
          List.getElem?_range hj]
        simp [hj, hjo]
    · rw [List.getElem?_eq_none
          (by rw [hlen, List.length_replicate]; omega),
        List.getElem?_eq_none
          (by rw [List.length_map, List.length_range]; omega)]
  rw [hbuf]
  rfl

/-- Witness for the amended C3: pages 3 and 0 of a 4-page document
arrive, pages 1 and 2 never do; the join still succeeds with empty
segments for the missing pages. -/
theorem C3_finalize_never_fails_witness :
    (aggregation_loop envOk "d.pdf" 300 "eng" [3, 0] (List.replicate 4 "")
        0).map (fun x => finalize x.1) =
      .ok (String.intercalate "\n\n"
        ((List.range 4).map fun j =>
          if j ∈ ([3, 0] : List Nat) then "p" ++ toString j else "")) :=
  C3_finalize_never_fails envOk "d.pdf" 300 "eng"
    (fun j => "p" ++ toString j) 4 [3, 0] (by decide)
    (by intro i hi; fin_cases hi <;> rfl)

/-- C4: when the document opens, has `n` pages, and every page task
succeeds with text `t i`, the pipeline output is the texts of pages
`0 .. n-1` joined in page-index order by the blank-line boundary
`"\n\n"`, with exactly `n` joined segments — for every arrival order of
the completion events (any permutation of the page range). -/
theorem C4_output_in_page_order (env : OCREnv ε Img) (pdf_path : String)
    (dpi : Nat) (lang : String) (batch_size : Option Nat) (workers : Nat)
    (n : Nat) (t : Nat → String) (order : List Nat)
    (hopen : env.openDoc pdf_path = .ok ())
    (hcount : env.pageCount pdf_path = n)
    (hsucc : ∀ i, i < n →
      process_page env (i, pdf_path, dpi, lang) = .ok (i, t i))
    (hperm : order.Perm (List.range n)) :
    extract_text_with_ocr env pdf_path dpi lang batch_size workers order =
      .ok (String.intercalate "\n\n" ((List.range n).map t)) ∧
    ((List.range n).map t).length = n := by
  refine ⟨extract_ok_of_all env pdf_path dpi lang batch_size workers n t
    order hopen hcount hsucc hperm, ?_⟩
  rw [List.length_map, List.length_range]

/-- Witness for C4: a 4-page document whose events arrive in the order
3, 1, 0, 2 still yields the pages in index order. -/
theorem C4_output_in_page_order_witness :
    extract_text_with_ocr envOk "d.pdf" 300 "eng" none 3 [3, 1, 0, 2] =
      .ok (String.intercalate "\n\n"
        ((List.range 4).map fun i => "p" ++ toString i)) ∧
    ((List.range 4).map fun i => "p" ++ toString i).length = 4 :=
  C4_output_in_page_order envOk "d.pdf" 300 "eng" none 3 4
    (fun i => "p" ++ toString i) [3, 1, 0, 2] rfl rfl
    (by intro i hi; interval_cases i <;> rfl) (by decide)

/-- C5: the derived worker count is `max(1, units - 1)` (here at
`cpu_count = 4`, giving 3), and an explicit positive batch size (here 7)
does override the derived default for the reported batch size — but the
pool is created with `max_workers = hardware_config["workers"]`
(line 104), so the explicit batch size is NOT the number of concurrent
workers actually used: the pool still uses 3 workers, not 7. -/
theorem C5_batch_size_not_used_by_pool :
    optimal_workers 4 = 3 ∧
    effective_batch_size 3 (some 7) = 7 ∧
    pool_max_workers 3 (some 7) = 3 ∧
    pool_max_workers 3 (some 7) ≠ 7 := by
  refine ⟨by decide, rfl, rfl, by decide⟩

/-- C6: each completion event increments the processed count, sets
elapsed to `now - start`, computes throughput as
`count / max(elapsed, 0.1)` (a positive denominator, so no division by
zero at the first event), and computes the ETA with the positive guard
`max(throughput, 0.001)`; after the event that completes the last of
`total` pages, the processed count equals `total` and the ETA is 0. -/
theorem C6_progress_last_event (total before : Nat) (start now : ℚ)
    (hlast : before + 1 = total) :
    (progress_update total before start now).1 = total ∧
    (progress_update total before start now).2.1 = now - start ∧
    (progress_update total before start now).2.2.1 =
      ((before : ℚ) + 1) / max (now - start) (1 / 10) ∧
    0 < max (now - start) (1 / 10 : ℚ) ∧
    0 < max ((progress_update total before start now).2.2.1)
      (1 / 1000 : ℚ) ∧
    (progress_update total before start now).2.2.2 = 0 := by
  subst hlast
  refine ⟨rfl, rfl, ?_, ?_, ?_, ?_⟩
  · simp only [progress_update]
    push_cast
    rfl
  · exact lt_max_iff.mpr (Or.inr (by norm_num))
  · exact lt_max_iff.mpr (Or.inr (by norm_num))
  · simp [progress_update]

/-- Witness for C6, completing page 3 of 3 at time 1 after starting at
time 0. -/
theorem C6_progress_last_event_witness :
    (progress_update 3 2 (0 : ℚ) (1 : ℚ)).1 = 3 ∧
    (progress_update 3 2 (0 : ℚ) (1 : ℚ)).2.2.2 = 0 := by
  have h := C6_progress_last_event 3 2 (0 : ℚ) (1 : ℚ) rfl
  exact ⟨h.1, h.2.2.2.2.2⟩

/-- C7: on a zero-page document (for which the arrival stream is
necessarily empty), the pipeline completes without error with an empty
output text, and the aggregation loop runs no page task: it returns the
empty buffer with a processed count of 0. -/
theorem C7_zero_page_document (env : OCREnv ε Img) (pdf_path : String)
    (dpi : Nat) (lang : String) (batch_size : Option Nat) (workers : Nat)
    (order : List Nat) (hopen : env.openDoc pdf_path = .ok ())
    (hcount : env.pageCount pdf_path = 0)
    (hperm : order.Perm (List.range 0)) :
    extract_text_with_ocr env pdf_path dpi lang batch_size workers order =
      .ok "" ∧
    order = [] ∧
    aggregation_loop env pdf_path dpi lang order (List.replicate 0 "") 0 =
      .ok ([], 0) := by
  have hnil : order = [] := by
    rw [List.range_zero] at hperm
    exact hperm.eq_nil
  subst hnil
  refine ⟨?_, rfl, rfl⟩
  have h := extract_ok_of_loop env pdf_path dpi lang batch_size workers []
    (List.replicate (env.pageCount pdf_path) "") 0 hopen rfl
  rw [hcount] at h
  exact h

/-- Witness for C7, on a concrete zero-page environment. -/
theorem C7_zero_page_document_witness :
    extract_text_with_ocr envZero "empty.pdf" 300 "eng" none 3 [] =
      .ok "" ∧
    ([] : List Nat) = [] ∧
    aggregation_loop envZero "empty.pdf" 300 "eng" [] (List.replicate 0 "")
      0 = .ok ([], 0) :=
  C7_zero_page_document envZero "empty.pdf" 300 "eng" none 3 [] rfl rfl
    (by decide)

/-- C8: with a deterministic rasterizer and recognizer (the environment's
functions) and fixed document, resolution, language, batch size and
worker count, the pipeline's output text is a function of its inputs
alone: any two arrival orders of the completion events (any permutations
of the page range) yield the same output — the identical text when the
run succeeds, and no output in both runs when any page fails. -/
theorem C8_output_schedule_independent (env : OCREnv ε Img)
    (pdf_path : String) (dpi : Nat) (lang : String)
    (batch_size : Option Nat) (workers : Nat) (n : Nat) (o1 o2 : List Nat)
    (hcount : env.pageCount pdf_path = n)
    (h1 : o1.Perm (List.range n)) (h2 : o2.Perm (List.range n)) :
    (extract_text_with_ocr env pdf_path dpi lang batch_size workers
      o1).toOption =
    (extract_text_with_ocr env pdf_path dpi lang batch_size workers
      o2).toOption := by
  cases ho : env.openDoc pdf_path with
  | error e =>
    rw [extract_open_err env pdf_path dpi lang batch_size workers o1 e ho,
      extract_open_err env pdf_path dpi lang batch_size workers o2 e ho]
  | ok u =>
    cases u
    by_cases hall : ∀ i, i < n →
      ∃ r, process_page env (i, pdf_path, dpi, lang) = .ok r
    · choose r hr using hall
      set t : Nat → String :=
        fun i => if h : i < n then (r i h).2 else "" with ht
      have hsucc : ∀ i, i < n →
          process_page env (i, pdf_path, dpi, lang) = .ok (i, t i) := by
        intro i hi
        have hoki := hr i hi
        have hfst : (r i hi).1 = i :=
          process_page_fst env i pdf_path dpi lang (r i hi) hoki
        have hpair : r i hi = (i, t i) := by
          apply Prod.ext hfst
          simp [ht, hi]
        rw [← hpair]
        exact hoki
      rw [extract_ok_of_all env pdf_path dpi lang batch_size workers n t
        o1 ho hcount hsucc h1,
        extract_ok_of_all env pdf_path dpi lang batch_size workers n t
        o2 ho hcount hsucc h2]
    · push_neg at hall
      obtain ⟨i, hi, hnone⟩ := hall
      have herr : ∃ e, process_page env (i, pdf_path, dpi, lang) =
          .error e := by
        cases hp : process_page env (i, pdf_path, dpi, lang) with
        | error e => exact ⟨e, rfl⟩
        | ok r0 => exact absurd hp (hnone r0)
      obtain ⟨e, he⟩ := herr
      have hm1 : i ∈ o1 := (h1.mem_iff).mpr (List.mem_range.mpr hi)
      have hm2 : i ∈ o2 := (h2.mem_iff).mpr (List.mem_range.mpr hi)
      obtain ⟨e1, he1⟩ := extract_err_of_fail env pdf_path dpi lang
        batch_size workers o1 ⟨i, hm1, e, he⟩
      obtain ⟨e2, he2⟩ := extract_err_of_fail env pdf_path dpi lang
        batch_size workers o2 ⟨i, hm2, e, he⟩
      rw [he1, he2]
      rfl

/-- Witness for C8: two different arrival orders on the concrete 4-page
environment give the same output text. -/
theorem C8_output_schedule_independent_witness :
    (extract_text_with_ocr envOk "d.pdf" 300 "eng" none 3
      [0, 1, 2, 3]).toOption =
    (extract_text_with_ocr envOk "d.pdf" 300 "eng" none 3
      [3, 1, 0, 2]).toOption :=
  C8_output_schedule_independent envOk "d.pdf" 300 "eng" none 3 4
    [0, 1, 2, 3] [3, 1, 0, 2] rfl (by decide) (by decide)

/-- C10: a successful page task returns the page index it was given as
the first component of its result pair, and the aggregation step stores
the returned text at exactly that index of the buffer, so a result is
never attributed to a different page. -/
theorem C10_result_attributed_to_its_page (env : OCREnv ε Img)
    (page_num : Nat) (pdf_path : String) (dpi : Nat) (lang : String)
    (r : Nat × String) (all_text : List String)
    (h : process_page env (page_num, pdf_path, dpi, lang) = .ok r) :
    r.1 = page_num ∧
    record_result all_text r = all_text.set page_num r.2 := by
  have hfst := process_page_fst env page_num pdf_path dpi lang r h
  exact ⟨hfst, by simp only [record_result, hfst]⟩

/-- Witness for C10: the task for page 1 of the concrete environment. -/
theorem C10_result_attributed_to_its_page_witness :
    ((1 : Nat), "p1").1 = 1 ∧
    record_result ["a", "b", "c"] (1, "p1") = ["a", "b", "c"].set 1 "p1" :=
  C10_result_attributed_to_its_page envOk 1 "d.pdf" 300 "eng" (1, "p1")
    ["a", "b", "c"] rfl
